import Mathlib

/-!
Shallow embedding of `src/app.py` (crypto-ai-api): the SQLite-backed store,
the control state machine (ACTIVE / PAUSED / CRYO), the ingest handlers and
the OHLC candle aggregator.

Modelling conventions, matching the Python source line by line:

* Timestamps.  The code stores ISO-8601 UTC strings with second precision and
  converts with `_to_epoch` / `datetime.fromisoformat`.  A stored timestamp
  string is modelled by `TimeStr`: `empty` for the empty string (falsy in
  Python), `valid e` for a parseable string denoting epoch second `e`, and
  `invalid` for a nonempty unparseable string.  `utc_now_iso()` at epoch
  `now` is `TimeStr.valid now`.
* Numbers.  Python floats only ever get stored, compared with `max`/`min`,
  or copied by this code — no rounding arithmetic — so they are modelled as
  `ℚ` (finite doubles embed in `ℚ` and order is preserved).  Python ints are
  `Int`.
* JSON bodies.  `request.get_json(force=True, silent=True)` yields `None`
  for an absent or malformed body, and the handlers replace that with `{}`;
  a handler body is `Option B` where `none` is the absent/malformed case and
  each field of `B` is an `Option` (`none` = key missing).  `x or d`
  on a string field collapses the falsy empty string.
* The store.  `control` has exactly one row (schema `CHECK (id = 1)`, all
  writes are `UPDATE ... WHERE id=1`), so it is a single `ControlRow`.  All
  other tables are `INTEGER PRIMARY KEY AUTOINCREMENT` tables written only
  by `INSERT`; they are modelled as lists in insertion order (the implicit
  id of a row is its position + 1), so `ORDER BY id DESC LIMIT 1`
  (`fetch_one`) is `List.getLast?`.
* Responses.  Handlers that can only answer HTTP 200 return their payload
  (or `Bool` for a bare `{"ok": true}`); `ingest_prices`, which has a 400
  path, returns `Option Nat` (`some count` = 200, `none` = 400).
-/

/-- Stored timestamp string: empty, valid ISO (with its epoch), or garbage. -/
inductive TimeStr
  | empty
  | valid (epoch : Int)
  | invalid
deriving DecidableEq, Repr

/-- Python `body.get("time_utc") or utc_now_iso()` (app.py:487 etc.):
a missing key or an empty string falls back to the current time. -/
def timeOrNow (now : Int) : Option TimeStr → TimeStr
  | none => .valid now
  | some .empty => .valid now
  | some t => t

/-- Python `_to_epoch` (app.py:42-51): parse an ISO string, falling back to
the current time on any parse failure. -/
def toEpoch (now : Int) : TimeStr → Int
  | .valid e => e
  | _ => now

/-- Python `str.upper()` restricted to ASCII, as applied to state names. -/
def pyUpper (s : String) : String := String.mk (s.data.map Char.toUpper)

/-- Value stored in an event/death `details` JSON object. -/
inductive DVal
  | s (v : String)
  | t (v : TimeStr)
deriving DecidableEq, Repr

/-- Row of the `control` table (app.py:58-66), the only id=1 singleton. -/
structure ControlRow where
  state : String
  pause_reason : String
  pause_until_utc : TimeStr
  cryo_reason : String
  cryo_until_utc : TimeStr
  updated_time_utc : TimeStr
deriving DecidableEq, Repr

/-- Row of the `heartbeat` table (app.py:69-83). -/
structure HeartbeatRow where
  time_utc : TimeStr
  time_epoch : Int
  equity_usd : ℚ
  wins : Int
  losses : Int
  total_trades : Int
  total_pnl_usd : ℚ
  markets : List String
  open_positions : Int
  prices_ok : Int
  status : String
  survival_mode : String
deriving DecidableEq, Repr

/-- Row of the `pet` table (app.py:86-97). -/
structure PetRow where
  time_utc : TimeStr
  time_epoch : Int
  fainted_until_utc : TimeStr
  growth : ℚ
  health : ℚ
  hunger : ℚ
  mood : String
  stage : String
  sex : String
deriving DecidableEq, Repr

/-- Row of the `prices` tick table (app.py:100-107). -/
structure TickRow where
  time_utc : TimeStr
  time_epoch : Int
  market : String
  price : ℚ
deriving DecidableEq, Repr

/-- Row of the `equity` table (app.py:109-115). -/
structure EquityRow where
  time_utc : TimeStr
  time_epoch : Int
  equity_usd : ℚ
deriving DecidableEq, Repr

/-- Row of the `trades` table (app.py:117-129). -/
structure TradeRow where
  time_utc : TimeStr
  time_epoch : Int
  market : String
  side : String
  size_usd : ℚ
  price : ℚ
  pnl_usd : ℚ
  confidence : ℚ
  reason : String
deriving DecidableEq, Repr

/-- Row of the `events` table (app.py:131-139). -/
structure EventRow where
  time_utc : TimeStr
  time_epoch : Int
  type : String
  message : String
  details : List (String × DVal)
deriving DecidableEq, Repr

/-- Row of the `deaths` table (app.py:141-149). -/
structure DeathRow where
  time_utc : TimeStr
  time_epoch : Int
  source : String
  reason : String
  details : List (String × DVal)
deriving DecidableEq, Repr

/-- The whole SQLite database.  `control` is the single id=1 row; every
other table is an AUTOINCREMENT append log in insertion order. -/
structure Store where
  control : ControlRow
  heartbeat : List HeartbeatRow
  pet : List PetRow
  prices : List TickRow
  equity : List EquityRow
  trades : List TradeRow
  events : List EventRow
  deaths : List DeathRow
deriving DecidableEq, Repr

/-- Control row created by `init_db` (app.py:158-165). -/
def initControl (now : Int) : ControlRow :=
  ⟨"ACTIVE", "", .empty, "", .empty, .valid now⟩

/-- Database right after `init_db` on a fresh file (app.py:152-170). -/
def initStore (now : Int) : Store :=
  ⟨initControl now, [], [], [], [], [], [], []⟩

/-- Python `add_event` (app.py:214-223): append one row to `events`,
stamped with the current time. -/
def addEvent (now : Int) (type msg : String) (details : List (String × DVal))
    (st : Store) : Store :=
  { st with events := st.events ++ [⟨.valid now, now, type, msg, details⟩] }

/-- Python `get_control` (app.py:225-229): the singleton row always exists
after `init_db`, so this is just the row. -/
def get_control (st : Store) : ControlRow := st.control

/-- Python `_set_control_state` (app.py:265-291).  For "ACTIVE" it clears
every timer and reason, stamps `updated_time_utc`, and appends an info
event; for "PAUSED"/"CRYO" (and anything else) it does nothing — the
callers set those fields themselves. -/
def setControlState (now : Int) (state reason : String) (st : Store) : Store :=
  if pyUpper (if state = "" then "ACTIVE" else state) = "ACTIVE" then
    addEvent now "info" "State -> ACTIVE" [("reason", DVal.s reason)]
      { st with control := ⟨"ACTIVE", "", .empty, "", .empty, .valid now⟩ }
  else st

/-- Normalized state read, Python `(c.get("state") or "ACTIVE").upper()`
(app.py:234). -/
def pyTruthyState (s : String) : String :=
  pyUpper (if s = "" then "ACTIVE" else s)

/-- The `paused` flag of `is_paused_or_cryo` (app.py:242-247): set only in
state PAUSED with a nonempty deadline; a parse failure counts as paused,
a future deadline (`dt > now`) counts as paused. -/
def pausedFlag (now : Int) (state : String) (tu : TimeStr) : Bool :=
  if state = "PAUSED" then
    match tu with
    | .empty => false
    | .valid e => decide (now < e)
    | .invalid => true
  else false

/-- The `cryo` flag of `is_paused_or_cryo` (app.py:249-254). -/
def cryoFlag (now : Int) (state : String) (tu : TimeStr) : Bool :=
  if state = "CRYO" then
    match tu with
    | .empty => false
    | .valid e => decide (now < e)
    | .invalid => true
  else false

/-- Python `is_paused_or_cryo` (app.py:231-263).  If the state is PAUSED or
CRYO but neither flag is set (deadline empty or elapsed), it persists
state ACTIVE (`_set_control_state`, which also appends an event) and
returns the re-read row; otherwise it returns the row unchanged.  Result:
(state string, updated store, control row handed to the caller). -/
def isPausedOrCryo (now : Int) (st : Store) : String × Store × ControlRow :=
  if ((pyTruthyState st.control.state == "PAUSED"
        || pyTruthyState st.control.state == "CRYO")
      && !(pausedFlag now (pyTruthyState st.control.state) st.control.pause_until_utc)
      && !(cryoFlag now (pyTruthyState st.control.state) st.control.cryo_until_utc)) then
    ("ACTIVE", setControlState now "ACTIVE" "timer complete" st,
      (setControlState now "ACTIVE" "timer complete" st).control)
  else
    (pyTruthyState st.control.state, st, st.control)

/-- Handler `GET /control` (app.py:361-363): returns the persisted row as
is.  It does not consult the clock and does not write. -/
def control_get (st : Store) : ControlRow := get_control st

/-- Body of `POST /control/pause` and `POST /control/cryo`. -/
structure PauseBody where
  seconds : Option Int
  reason : Option String
deriving DecidableEq, Repr

/-- Seconds taken by `control_pause` (app.py:607): default 600. -/
def pauseSecondsOf (body : Option PauseBody) : Int :=
  ((body.getD ⟨none, none⟩).seconds).getD 600

/-- Reason taken by `control_pause` (app.py:608): default "manual pause". -/
def pauseReasonOf (body : Option PauseBody) : String :=
  ((body.getD ⟨none, none⟩).reason).getD "manual pause"

/-- Handler `POST /control/pause` (app.py:604-622): unconditionally sets
state PAUSED with `pause_until = now + seconds`, leaves the cryo fields
alone, appends a warning event, and echoes the new deadline. -/
def control_pause (now : Int) (body : Option PauseBody) (st : Store) :
    Store × (String × TimeStr × String) :=
  let seconds := pauseSecondsOf body
  let reason := pauseReasonOf body
  let untilT := TimeStr.valid (now + seconds)
  let c := st.control
  let st1 := { st with control :=
    { c with state := "PAUSED", pause_reason := reason,
             pause_until_utc := untilT, updated_time_utc := .valid now } }
  let st2 := addEvent now "warning" "State -> PAUSED"
    [("pause_until_utc", DVal.t untilT), ("reason", DVal.s reason)] st1
  (st2, ("PAUSED", untilT, reason))

/-- Handler `POST /control/cryo` (app.py:624-642), symmetric to pause. -/
def control_cryo (now : Int) (body : Option PauseBody) (st : Store) :
    Store × (String × TimeStr × String) :=
  let seconds := ((body.getD ⟨none, none⟩).seconds).getD 600
  let reason := ((body.getD ⟨none, none⟩).reason).getD "cryo safety"
  let untilT := TimeStr.valid (now + seconds)
  let c := st.control
  let st1 := { st with control :=
    { c with state := "CRYO", cryo_reason := reason,
             cryo_until_utc := untilT, updated_time_utc := .valid now } }
  let st2 := addEvent now "warning" "State -> CRYO"
    [("cryo_until_utc", DVal.t untilT), ("reason", DVal.s reason)] st1
  (st2, ("CRYO", untilT, reason))

/-- Body of `POST /control/revive`. -/
structure ReviveBody where
  reason : Option String
deriving DecidableEq, Repr

/-- Handler `POST /control/revive` (app.py:644-653): `_set_control_state
("ACTIVE")` plus one more info event.  It touches no table other than
`control` and `events`. -/
def control_revive (now : Int) (body : Option ReviveBody) (st : Store) :
    Store × String :=
  let reason := ((body.getD ⟨none⟩).reason).getD "revive"
  let st1 := setControlState now "ACTIVE" reason st
  let st2 := addEvent now "info" "Revive executed" [("reason", DVal.s reason)] st1
  (st2, "ACTIVE")

/-- Handler `GET /pet` (app.py:448-450): latest row by id. -/
def get_pet (st : Store) : Option PetRow := st.pet.getLast?

/-- Handler `GET /heartbeat` (app.py:444-446): latest row by id. -/
def get_heartbeat (st : Store) : Option HeartbeatRow := st.heartbeat.getLast?

/-- Body of `POST /ingest/equity`. -/
structure EquityBody where
  time_utc : Option TimeStr
  equity_usd : Option ℚ
deriving DecidableEq, Repr

/-- Row built by `ingest_equity` (app.py:483-488). -/
def equityRowOf (now : Int) (body : Option EquityBody) : EquityRow :=
  let b := body.getD ⟨none, none⟩
  let t := timeOrNow now b.time_utc
  ⟨t, toEpoch now t, b.equity_usd.getD 0⟩

/-- Handler `POST /ingest/equity` (app.py:483-489): an absent or malformed
body becomes `{}`, defaults fill every field, one row is appended, and
the response is 200 `{"ok": true}`. -/
def ingest_equity (now : Int) (body : Option EquityBody) (st : Store) :
    Store × Bool :=
  ({ st with equity := st.equity ++ [equityRowOf now body] }, true)

/-- Body of `POST /ingest/heartbeat`. -/
structure HeartbeatBody where
  time_utc : Option TimeStr
  equity_usd : Option ℚ
  wins : Option Int
  losses : Option Int
  total_trades : Option Int
  total_pnl_usd : Option ℚ
  markets : Option (List String)
  open_positions : Option Int
  prices_ok : Option Bool
  status : Option String
  survival_mode : Option String
deriving DecidableEq, Repr

/-- Row built by `ingest_heartbeat` (app.py:495-508). -/
def heartbeatRowOf (now : Int) (body : Option HeartbeatBody) : HeartbeatRow :=
  let b := body.getD ⟨none, none, none, none, none, none, none, none, none, none, none⟩
  let t := timeOrNow now b.time_utc
  { time_utc := t
    time_epoch := toEpoch now t
    equity_usd := b.equity_usd.getD 0
    wins := b.wins.getD 0
    losses := b.losses.getD 0
    total_trades := b.total_trades.getD 0
    total_pnl_usd := b.total_pnl_usd.getD 0
    markets := b.markets.getD []
    open_positions := b.open_positions.getD 0
    prices_ok := if b.prices_ok.getD false then 1 else 0
    status := b.status.getD "running"
    survival_mode := b.survival_mode.getD "NORMAL" }

/-- Handler `POST /ingest/heartbeat` (app.py:491-510): a plain `INSERT`
into the AUTOINCREMENT `heartbeat` table — no upsert, no id=1 key. -/
def ingest_heartbeat (now : Int) (body : Option HeartbeatBody) (st : Store) :
    Store × Bool :=
  ({ st with heartbeat := st.heartbeat ++ [heartbeatRowOf now body] }, true)

/-- Body of `POST /ingest/pet`. -/
structure PetBody where
  time_utc : Option TimeStr
  fainted_until_utc : Option TimeStr
  growth : Option ℚ
  health : Option ℚ
  hunger : Option ℚ
  mood : Option String
  stage : Option String
  sex : Option String
deriving DecidableEq, Repr

/-- Row built by `ingest_pet` (app.py:516-526).  `health` and `hunger`
are stored exactly as received (`float(body.get(...))`): the code applies
no clamping of any kind. -/
def petRowOf (now : Int) (body : Option PetBody) : PetRow :=
  let b := body.getD ⟨none, none, none, none, none, none, none, none⟩
  let t := timeOrNow now b.time_utc
  { time_utc := t
    time_epoch := toEpoch now t
    fainted_until_utc := b.fainted_until_utc.getD .empty
    growth := b.growth.getD 0
    health := b.health.getD 100
    hunger := b.hunger.getD 0
    mood := b.mood.getD "neutral"
    stage := b.stage.getD "egg"
    sex := b.sex.getD "boy" }

/-- Handler `POST /ingest/pet` (app.py:512-528): a plain `INSERT` into the
AUTOINCREMENT `pet` table. -/
def ingest_pet (now : Int) (body : Option PetBody) (st : Store) :
    Store × Bool :=
  ({ st with pet := st.pet ++ [petRowOf now body] }, true)

/-- Body of `POST /ingest/trade`. -/
structure TradeBody where
  time_utc : Option TimeStr
  market : Option String
  side : Option String
  size_usd : Option ℚ
  price : Option ℚ
  pnl_usd : Option ℚ
  confidence : Option ℚ
  reason : Option String
deriving DecidableEq, Repr

/-- Row built by `ingest_trade` (app.py:534-544). -/
def tradeRowOf (now : Int) (body : Option TradeBody) : TradeRow :=
  let b := body.getD ⟨none, none, none, none, none, none, none, none⟩
  let t := timeOrNow now b.time_utc
  { time_utc := t
    time_epoch := toEpoch now t
    market := b.market.getD "BTCUSDT"
    side := b.side.getD "buy"
    size_usd := b.size_usd.getD 0
    price := b.price.getD 0
    pnl_usd := b.pnl_usd.getD 0
    confidence := b.confidence.getD 0
    reason := b.reason.getD "" }

/-- Handler `POST /ingest/trade` (app.py:530-546). -/
def ingest_trade (now : Int) (body : Option TradeBody) (st : Store) :
    Store × Bool :=
  ({ st with trades := st.trades ++ [tradeRowOf now body] }, true)

/-- JSON value appearing as a price in an `/ingest/prices` map, seen
through Python `float()`: either it converts to a number or `float()`
raises (non-numeric string, null, list, ...). -/
inductive PVal
  | num (q : ℚ)
  | nonNum
deriving DecidableEq, Repr

/-- Python `float(price)` as a partial function. -/
def floatQ : PVal → Option ℚ
  | .num q => some q
  | .nonNum => none

/-- The JSON value found under the `prices` key of an `/ingest/prices`
body (app.py:557): absent, a map, or some non-dict value. -/
inductive PricesField
  | absent
  | dict (kvs : List (String × PVal))
  | nonDict
deriving DecidableEq, Repr

/-- Body of `POST /ingest/prices`: the optional `time_utc` key, the
optional `prices` key, and the remaining top-level market entries (used
when the flat form `{ "BTCUSDT": 42000, ... }` is sent). -/
structure PricesBody where
  time_utc : Option TimeStr
  prices_field : PricesField
  flat : List (String × PVal)
deriving DecidableEq, Repr

/-- The tick row the prices loop would append for one map entry, or `none`
when `float(price)` raises and the entry is skipped (app.py:565-570). -/
def tickRowOf (t : TimeStr) (te : Int) (kv : String × PVal) : Option TickRow :=
  (floatQ kv.2).map (fun q => ⟨t, te, kv.1, q⟩)

/-- The per-entry loop of `ingest_prices` (app.py:564-570): each
convertible entry is inserted (and committed) on its own and counted;
a failing entry is swallowed by `except: pass`. -/
def pricesLoop (t : TimeStr) (te : Int) (kvs : List (String × PVal))
    (st : Store) (count : Nat) : Store × Nat :=
  match kvs with
  | [] => (st, count)
  | kv :: rest =>
    match floatQ kv.2 with
    | some q =>
        pricesLoop t te rest
          { st with prices := st.prices ++ [⟨t, te, kv.1, q⟩] } (count + 1)
    | none => pricesLoop t te rest st count

/-- Items iterated in the flat form (app.py:558-559: `prices = body`): the
whole body is the map, so a present `time_utc` key is iterated too; its
ISO string never converts via `float()`, hence `PVal.nonNum`. -/
def flatItems (b : PricesBody) : List (String × PVal) :=
  (match b.time_utc with
   | some _ => [("time_utc", PVal.nonNum)]
   | none => []) ++ b.flat

/-- Handler `POST /ingest/prices` (app.py:548-572).  `some count` is the
200 response `{"ok": true, "count": count}`; `none` is the 400 response
for a non-dict `prices` value, the only error path. -/
def ingest_prices (now : Int) (body : Option PricesBody) (st : Store) :
    Store × Option Nat :=
  let b := body.getD ⟨none, .absent, []⟩
  let t := timeOrNow now b.time_utc
  let te := toEpoch now t
  match b.prices_field with
  | .nonDict => (st, none)
  | .dict kvs =>
      let r := pricesLoop t te kvs st 0
      (r.1, some r.2)
  | .absent =>
      let r := pricesLoop t te (flatItems b) st 0
      (r.1, some r.2)

/-- Handler `GET /prices` (app.py:469-471): newest 1000 ticks, newest
first. -/
def get_prices (st : Store) : List TickRow := st.prices.reverse.take 1000

/-- Candle record `{t, o, h, l, c}` built by `compute_ohlc` (app.py:328). -/
structure Candle where
  t : Int
  o : ℚ
  h : ℚ
  l : ℚ
  c : ℚ
deriving DecidableEq, Repr

/-- Bucket start of a tick, Python `(tick["t"] // interval_sec) *
interval_sec` (app.py:326); `//` is floor division, i.e. `Int.fdiv`. -/
def bucketOf (interval t : Int) : Int := Int.fdiv t interval * interval

/-- Candle opened by the first tick of a bucket (app.py:328). -/
def tickInit (b : Int) (p : ℚ) : Candle := ⟨b, p, p, p, p⟩

/-- Candle update by a subsequent tick of the same bucket (app.py:330-333):
`h = max`, `l = min`, `c = last`, `o` untouched. -/
def tickUpd (d : Candle) (p : ℚ) : Candle :=
  { d with h := max d.h p, l := min d.l p, c := p }

/-- First-match association lookup, Python `b in buckets` / `buckets[b]`. -/
def alookup (b : Int) : List (Int × Candle) → Option Candle
  | [] => none
  | kv :: rest => if kv.1 = b then some kv.2 else alookup b rest

/-- One iteration of the tick loop (app.py:325-333) on the insertion-ordered
dict `buckets`: open a new candle for an unseen bucket (Python dicts append
new keys at the end), else update the stored candle in place. -/
def updBuckets (interval : Int) (buckets : List (Int × Candle))
    (tick : Int × ℚ) : List (Int × Candle) :=
  match alookup (bucketOf interval tick.1) buckets with
  | none =>
      buckets ++ [(bucketOf interval tick.1,
                   tickInit (bucketOf interval tick.1) tick.2)]
  | some _ =>
      buckets.map (fun kv =>
        if kv.1 = bucketOf interval tick.1 then (kv.1, tickUpd kv.2 tick.2)
        else kv)

/-- Effective candle interval (app.py:302): `max(10, int(interval_sec))` —
a lower clamp only, the code has no upper bound. -/
def effInterval (interval : Int) : Int := max 10 interval

/-- Effective limit (app.py:303): `max(10, min(1000, int(limit)))`. -/
def effLimit (limit : Int) : Int := max 10 (min 1000 limit)

/-- Python `out[-n:]` for `n ≥ 1`: the last `n` elements (all of them when
the list is shorter). -/
def takeLast (n : Nat) (l : List Candle) : List Candle := l.drop (l.length - n)

/-- Core of `compute_ohlc` (app.py:296-337) on the fetched tick list
`(time_epoch, price)`, already ascending in time (the SQL pulls the newest
5000 ticks of the market `ORDER BY time_epoch DESC` and the code reverses
them, app.py:306-322): fold the ticks into the bucket dict, emit the
candles in ascending bucket order (`sorted(buckets.keys())`, every sorted
key is present so the lookup never fails), and keep the last `lim`. -/
def ohlcAtInterval (i lim : Int) (ticks : List (Int × ℚ)) : List Candle :=
  takeLast lim.toNat
    ((List.insertionSort (fun a b => a ≤ b)
        ((ticks.foldl (updBuckets i) []).map (fun kv => kv.1))).filterMap
      (fun k => alookup k (ticks.foldl (updBuckets i) [])))

/-- Python `compute_ohlc(market, interval_sec, limit)` (app.py:296-337)
after the tick fetch: clamp the parameters and aggregate. -/
def compute_ohlc (interval limit : Int) (ticks : List (Int × ℚ)) : List Candle :=
  takeLast (effLimit limit).toNat
    ((List.insertionSort (fun a b => a ≤ b)
        ((ticks.foldl (updBuckets (effInterval interval)) []).map
          (fun kv => kv.1))).filterMap
      (fun k => alookup k (ticks.foldl (updBuckets (effInterval interval)) [])))

/-- Candle the specification prescribes for one bucket, from the prices of
that bucket in time order: the first price initializes `o,h,l,c`, each
later price updates `h = max`, `l = min`, `c = last`. -/
def specCandleOfPrices (b : Int) : List ℚ → Option Candle
  | [] => none
  | p :: ps => some (ps.foldl tickUpd (tickInit b p))

/-- Candle the specification prescribes for bucket `b`: fold the prices of
the ticks whose bucket `⌊t / i⌋ * i` equals `b`, in input order. -/
def specCandle (i b : Int) (ticks : List (Int × ℚ)) : Option Candle :=
  specCandleOfPrices b
    ((ticks.filter (fun x => decide (bucketOf i x.1 = b))).map (fun x => x.2))

/-- Bucket starts occurring in the tick list, each once, ascending. -/
def specBucketKeys (i : Int) (ticks : List (Int × ℚ)) : List Int :=
  List.insertionSort (fun a b => a ≤ b)
    ((ticks.map (fun x => bucketOf i x.1)).dedup)

/-- OHLC output prescribed by the specification: one candle per occurring
bucket, ascending by bucket start, last `lim` kept. -/
def ohlcSpec (i lim : Int) (ticks : List (Int × ℚ)) : List Candle :=
  takeLast lim.toNat
    ((specBucketKeys i ticks).filterMap (fun b => specCandle i b ticks))

/-- Upper-and-lower clamp of `interval_sec` to `[10, 86400]` as the
specification words it ("an interval below 10 is raised to 10 and an
interval above 86400 is lowered to 86400") — for comparison with the
code's `effInterval`. -/
def specClampInterval (interval : Int) : Int := max 10 (min 86400 interval)

/-- C2 counterexample: start from an empty store, ingest a pet with
`health=10, hunger=90, stage="adult"`, then `POST /control/revive`.
`GET /pet` still returns the ingested record — not the initial values
(stage "egg", health 100, hunger 50) the claim promises. -/
theorem revive_leaves_pet_unchanged_cex :
    (get_pet (control_revive 1 none
        (ingest_pet 0
          (some ⟨none, none, none, some 10, some 90, none, some "adult", none⟩)
          (initStore 0)).1).1).map (fun r => (r.stage, r.health, r.hunger))
      = some ("adult", (10 : ℚ), (90 : ℚ)) ∧
    ("adult" : String) ≠ "egg" ∧ (10 : ℚ) ≠ 100 ∧ (90 : ℚ) ≠ 50 := by
  refine ⟨rfl, by decide, by norm_num, by norm_num⟩

/-- C2 (amended): `POST /control/revive` sets Control to ACTIVE with all
timers and reasons cleared and appends two info events, but it does not
touch the `pet` table: a subsequent `GET /pet` returns exactly what it
returned before the revive (the most recently ingested pet record), for
every prior store and body. -/
theorem revive_resets_control_not_pet (now : Int) (body : Option ReviveBody)
    (st : Store) :
    (control_revive now body st).1.pet = st.pet ∧
    get_pet (control_revive now body st).1 = get_pet st ∧
    (control_revive now body st).1.control
      = ⟨"ACTIVE", "", .empty, "", .empty, .valid now⟩ ∧
    (control_revive now body st).2 = "ACTIVE" := by
  refine ⟨rfl, rfl, rfl, rfl⟩

/-- C5 counterexample: two `POST /ingest/heartbeat` calls leave two rows in
the `heartbeat` table, and two one-entry `POST /ingest/prices` calls leave
two tick rows both visible through `GET /prices` — the writes are plain
`INSERT`s into AUTOINCREMENT tables, not id=1 upserts, and the store holds
more than one live row per name. -/
theorem heartbeat_pet_prices_rows_accumulate_cex :
    ((ingest_heartbeat 1 none (ingest_heartbeat 0 none (initStore 0)).1).1).heartbeat.length = 2 ∧
    (get_prices ((ingest_prices 1 (some ⟨none, .dict [("BTCUSDT", .num 2)], []⟩)
        ((ingest_prices 0 (some ⟨none, .dict [("BTCUSDT", .num 1)], []⟩)
          (initStore 0)).1)).1)).length = 2 := by
  refine ⟨rfl, rfl⟩

/-- C5 (amended): Heartbeat and Pet ingest writes are appends of a fresh
row at the end of their AUTOINCREMENT table (never an id=1 upsert), rows
accumulate, and the latest-row reads `GET /heartbeat` / `GET /pet` return
the row just appended.  Only Control is a true id=1 singleton, which the
model reflects by construction (`Store.control` is one row). -/
theorem ingest_writes_are_appends (now : Int) (hb : Option HeartbeatBody)
    (pb : Option PetBody) (st : Store) :
    (ingest_heartbeat now hb st).1.heartbeat
      = st.heartbeat ++ [heartbeatRowOf now hb] ∧
    (ingest_pet now pb st).1.pet = st.pet ++ [petRowOf now pb] ∧
    get_heartbeat (ingest_heartbeat now hb st).1 = some (heartbeatRowOf now hb) ∧
    get_pet (ingest_pet now pb st).1 = some (petRowOf now pb) := by
  refine ⟨rfl, rfl, ?_, ?_⟩ <;> simp [get_heartbeat, get_pet, ingest_heartbeat, ingest_pet]

/-- C7 counterexample: from a fresh store pause for 100 seconds, then —
still at the same instant — pause again for 10 seconds. The second call
has `s₂ = 10 ≤ s₁ = 100`, yet it is not a no-op: it moves `pause_until`
from epoch 100 back to epoch 10, earlier than before. -/
theorem pause_shorter_moves_deadline_earlier_cex :
    ((control_pause 0 (some ⟨some 100, some "a"⟩) (initStore 0)).1).control.pause_until_utc
      = TimeStr.valid 100 ∧
    ((control_pause 0 (some ⟨some 10, some "b"⟩)
        (control_pause 0 (some ⟨some 100, some "a"⟩) (initStore 0)).1).1).control.pause_until_utc
      = TimeStr.valid 10 ∧
    (10 : Int) < 100 := by
  refine ⟨rfl, rfl, by decide⟩

/-- C7 (amended): every `pause(s, r)` call unconditionally overwrites the
deadline: after two successive pauses the persisted row has state PAUSED,
`pause_until = now₂ + s₂` and `pause_reason = r₂`, whatever the first
pause set — there is no "extend-only" comparison, so a second pause with
`s₂ ≤ s₁` can move the deadline earlier. -/
theorem pause_always_overwrites_deadline (now1 now2 : Int)
    (b1 b2 : Option PauseBody) (st : Store) :
    ((control_pause now2 b2 (control_pause now1 b1 st).1).1).control
      = { state := "PAUSED"
          pause_reason := pauseReasonOf b2
          pause_until_utc := TimeStr.valid (now2 + pauseSecondsOf b2)
          cryo_reason := st.control.cryo_reason
          cryo_until_utc := st.control.cryo_until_utc
          updated_time_utc := TimeStr.valid now2 } := by
  rfl

/-- C8 counterexample: `POST /ingest/equity` with an absent or malformed
JSON body (`get_json(..., silent=True)` returns `None`) does not answer
`BadRequest`: it persists one default-valued row (`equity_usd = 0`,
stamped with the current time) and returns 200 `{"ok": true}`. -/
theorem malformed_body_not_rejected_cex :
    ((ingest_equity 7 none (initStore 0)).1).equity
      = [⟨TimeStr.valid 7, 7, 0⟩] ∧
    (ingest_equity 7 none (initStore 0)).2 = true := by
  refine ⟨rfl, rfl⟩

/-- C8 (amended): an ingest request whose JSON body is absent or malformed
is processed as an empty object `{}`: `ingest_equity` and `ingest_trade`
apply the documented defaults, persist one row each and return 200, and
`ingest_prices` iterates an empty map, persists nothing, and returns
200 with count 0.  No `BadRequest` is raised for a malformed body. -/
theorem malformed_body_treated_as_empty (now : Int) (st : Store) :
    ingest_equity now none st
      = ({ st with equity := st.equity ++ [⟨TimeStr.valid now, now, 0⟩] }, true) ∧
    ingest_trade now none st
      = ({ st with trades := st.trades
            ++ [⟨TimeStr.valid now, now, "BTCUSDT", "buy", 0, 0, 0, 0, ""⟩] }, true) ∧
    ingest_prices now none st = (st, some 0) := by
  refine ⟨rfl, rfl, rfl⟩

/-- C9 counterexample: a pet ingest with `health = 150` and `hunger = -5`
persists those values verbatim; nothing clamps them into `[0, 100]`. -/
theorem pet_health_out_of_range_persisted_cex :
    (get_pet ((ingest_pet 0
        (some ⟨none, none, none, some 150, some (-5), none, none, none⟩)
        (initStore 0)).1)).map (fun r => (r.health, r.hunger))
      = some ((150 : ℚ), (-5 : ℚ)) ∧
    ¬ ((150 : ℚ) ≤ 100) ∧ ¬ ((0 : ℚ) ≤ -5) := by
  refine ⟨rfl, by norm_num, by norm_num⟩

/-- C9 (amended): on every pet ingest the numeric fields `health` and
`hunger` are persisted exactly as received (after `float()` conversion,
with defaults 100 and 0 for missing keys); the handler applies no
clamping, so out-of-range values are stored out of range. -/
theorem pet_ingest_stores_health_hunger_verbatim (now : Int) (b : PetBody)
    (st : Store) :
    (ingest_pet now (some b) st).1.pet = st.pet ++ [petRowOf now (some b)] ∧
    (petRowOf now (some b)).health = b.health.getD 100 ∧
    (petRowOf now (some b)).hunger = b.hunger.getD 0 := by
  refine ⟨rfl, rfl, rfl⟩

/-- C1 counterexample: `POST /control/pause {"seconds": 2}` at epoch 0,
then `GET /control` at epoch 3 — after the deadline (epoch 2) has elapsed.
The handler returns the persisted row unchanged: state is still PAUSED
with its stale deadline, not ACTIVE as the claim requires, even though
the code's own thaw test (`is_paused_or_cryo` at epoch 3) says the timer
is done. -/
theorem control_get_returns_stale_paused_state_cex :
    (control_get (control_pause 0 (some ⟨some 2, some "x"⟩) (initStore 0)).1).state
      = "PAUSED" ∧
    (control_get (control_pause 0 (some ⟨some 2, some "x"⟩) (initStore 0)).1).pause_until_utc
      = TimeStr.valid 2 ∧
    (2 : Int) < 3 ∧
    (isPausedOrCryo 3 (control_pause 0 (some ⟨some 2, some "x"⟩) (initStore 0)).1).1
      = "ACTIVE" := by
  refine ⟨rfl, by decide, by decide, by decide⟩

/-- C1 (amended): lazy thaw happens only on the reads of Control that go
through `is_paused_or_cryo` (the `/data` endpoint): there, whenever the
persisted state is PAUSED with its pause deadline empty or elapsed, or
CRYO with its cryo deadline empty or elapsed, the read persists state
ACTIVE with both timers and reasons cleared and returns ACTIVE.
`GET /control` itself performs no thaw: it returns the persisted row
unchanged, so after `pause(seconds=2)` a `GET /control` 3 seconds later
still reports PAUSED. -/
theorem lazy_thaw_in_is_paused_or_cryo (now : Int) (st : Store)
    (h : (st.control.state = "PAUSED"
            ∧ (st.control.pause_until_utc = TimeStr.empty ∨
               ∃ e : Int, st.control.pause_until_utc = TimeStr.valid e ∧ e ≤ now))
       ∨ (st.control.state = "CRYO"
            ∧ (st.control.cryo_until_utc = TimeStr.empty ∨
               ∃ e : Int, st.control.cryo_until_utc = TimeStr.valid e ∧ e ≤ now))) :
    (isPausedOrCryo now st).1 = "ACTIVE" ∧
    (isPausedOrCryo now st).2.1.control
      = ⟨"ACTIVE", "", .empty, "", .empty, .valid now⟩ ∧
    (isPausedOrCryo now st).2.2
      = ⟨"ACTIVE", "", .empty, "", .empty, .valid now⟩ ∧
    control_get st = st.control := by
  have hkey : isPausedOrCryo now st
      = ("ACTIVE", setControlState now "ACTIVE" "timer complete" st,
         (setControlState now "ACTIVE" "timer complete" st).control) := by
    rcases h with ⟨hs, he⟩ | ⟨hs, he⟩
    · have hps : pyTruthyState st.control.state = "PAUSED" := by rw [hs]; rfl
      have hpf : pausedFlag now "PAUSED" st.control.pause_until_utc = false := by
        rcases he with h1 | ⟨e, h1, hle⟩
        · rw [h1]; rfl
        · rw [h1]
          simp only [pausedFlag, if_pos rfl]
          exact decide_eq_false (not_lt.mpr hle)
      have hcf : cryoFlag now "PAUSED" st.control.cryo_until_utc = false := rfl
      unfold isPausedOrCryo
      rw [hps, hpf, hcf]
      rfl
    · have hps : pyTruthyState st.control.state = "CRYO" := by rw [hs]; rfl
      have hpf : pausedFlag now "CRYO" st.control.pause_until_utc = false := rfl
      have hcf : cryoFlag now "CRYO" st.control.cryo_until_utc = false := by
        rcases he with h1 | ⟨e, h1, hle⟩
        · rw [h1]; rfl
        · rw [h1]
          simp only [cryoFlag, if_pos rfl]
          exact decide_eq_false (not_lt.mpr hle)
      unfold isPausedOrCryo
      rw [hps, hpf, hcf]
      rfl
  rw [hkey]
  exact ⟨rfl, rfl, rfl, rfl⟩

/-- C1 witness: the amended theorem applied to both branches — the
concrete pause(2)-then-read-at-3 scenario and the symmetric
cryo(2)-then-read-at-3 scenario. -/
theorem lazy_thaw_in_is_paused_or_cryo_witness :
    ((control_pause 0 (some ⟨some 2, some "w"⟩) (initStore 0)).1).control.state
      = "PAUSED" ∧
    (isPausedOrCryo 3 (control_pause 0 (some ⟨some 2, some "w"⟩) (initStore 0)).1).1
      = "ACTIVE" ∧
    ((control_cryo 0 (some ⟨some 2, some "v"⟩) (initStore 0)).1).control.state
      = "CRYO" ∧
    (isPausedOrCryo 3 (control_cryo 0 (some ⟨some 2, some "v"⟩) (initStore 0)).1).1
      = "ACTIVE" := by
  refine ⟨rfl, ?_, rfl, ?_⟩
  · exact (lazy_thaw_in_is_paused_or_cryo 3
      ((control_pause 0 (some ⟨some 2, some "w"⟩) (initStore 0)).1)
      (Or.inl ⟨by decide, Or.inr ⟨2, by decide, by decide⟩⟩)).1
  · exact (lazy_thaw_in_is_paused_or_cryo 3
      ((control_cryo 0 (some ⟨some 2, some "v"⟩) (initStore 0)).1)
      (Or.inr ⟨by decide, Or.inr ⟨2, by decide, by decide⟩⟩)).1

/-- Closed form of the per-entry prices loop (app.py:564-570): it appends
one tick per convertible entry, in order, leaves every other table alone,
and adds the number of convertible entries to the running count. -/
theorem pricesLoop_spec (t : TimeStr) (te : Int) (kvs : List (String × PVal))
    (st : Store) (count : Nat) :
    pricesLoop t te kvs st count
      = ({ st with prices := st.prices ++ kvs.filterMap (tickRowOf t te) },
         count + (kvs.filterMap (tickRowOf t te)).length) := by
  induction kvs generalizing st count with
  | nil => simp [pricesLoop]
  | cons kv rest ih =>
    cases hq : floatQ kv.2 with
    | none =>
      simp [pricesLoop, hq, List.filterMap_cons, tickRowOf, ih]
    | some q =>
      simp only [pricesLoop, hq, ih, List.filterMap_cons, tickRowOf,
        Option.map_some', List.length_cons, List.append_assoc,
        List.singleton_append, Prod.mk.injEq]
      refine ⟨trivial, by omega⟩

/-- C3 counterexample: `POST /ingest/prices` with the two-entry map
`{"A": 1, "B": <non-numeric>}` appends one tick, not two, and still
answers 200 with `count = 1`: the failing entry is swallowed by the
per-entry `try/except`, so the N appends do not succeed or fail together,
and no prices-snapshot singleton is written (the schema has none — the
only write target is the append-only `prices` table). -/
theorem ingest_prices_partial_effect_cex :
    ((ingest_prices 0 (some ⟨none, .dict [("A", .num 1), ("B", .nonNum)], []⟩)
        (initStore 0)).1).prices.length = 1 ∧
    (ingest_prices 0 (some ⟨none, .dict [("A", .num 1), ("B", .nonNum)], []⟩)
        (initStore 0)).2 = some 1 ∧
    ([("A", PVal.num 1), ("B", PVal.nonNum)] : List (String × PVal)).length = 2 := by
  refine ⟨rfl, rfl, rfl⟩

/-- Tick rows `ingest_prices` derives from the convertible entries of a
`prices` map, all stamped with the request's effective timestamp. -/
def pricesTicksOf (now : Int) (tu : Option TimeStr)
    (kvs : List (String × PVal)) : List TickRow :=
  kvs.filterMap (tickRowOf (timeOrNow now tu) (toEpoch now (timeOrNow now tu)))

/-- C3 (amended): for a `POST /ingest/prices` whose `prices` key holds a
map, the handler appends exactly one Tick row per entry whose value
converts through `float()` — all sharing the request's timestamp — skips
non-convertible entries silently, reports 200 with the number actually
appended, and modifies no other part of the store.  There is no
prices-snapshot singleton and no cross-entry atomicity: each append is
committed on its own. -/
theorem ingest_prices_appends_per_entry (now : Int) (tu : Option TimeStr)
    (kvs fl : List (String × PVal)) (st : Store) :
    (ingest_prices now (some ⟨tu, .dict kvs, fl⟩) st).1
      = { st with prices := st.prices ++ pricesTicksOf now tu kvs } ∧
    (ingest_prices now (some ⟨tu, .dict kvs, fl⟩) st).2
      = some (pricesTicksOf now tu kvs).length := by
  have h := pricesLoop_spec (timeOrNow now tu) (toEpoch now (timeOrNow now tu))
    kvs st 0
  constructor <;> simp [ingest_prices, pricesTicksOf, h]

/-- One step of building a bucket's candle: the first price opens it, each
later price folds in by `tickUpd`. -/
def candStep (b : Int) (o : Option Candle) (p : ℚ) : Option Candle :=
  match o with
  | none => some (tickInit b p)
  | some d => some (tickUpd d p)

theorem alookup_append (b : Int) (B C : List (Int × Candle)) :
    alookup b (B ++ C)
      = match alookup b B with
        | some v => some v
        | none => alookup b C := by
  induction B with
  | nil => simp [alookup]
  | cons kv rest ih =>
    by_cases h : kv.1 = b <;> simp [alookup, h, ih]

theorem alookup_map_upd (b k : Int) (p : ℚ) (B : List (Int × Candle)) :
    alookup b (B.map (fun kv => if kv.1 = k then (kv.1, tickUpd kv.2 p) else kv))
      = if b = k then (alookup b B).map (fun d => tickUpd d p)
        else alookup b B := by
  induction B with
  | nil => by_cases h : b = k <;> simp [alookup, h]
  | cons kv rest ih =>
    by_cases hk : kv.1 = k <;> by_cases hkb : kv.1 = b
    · have hbk : b = k := hkb.symm.trans hk
      simp [alookup, hk, hkb, hbk]
    · have hbk : ¬ b = k := fun h => hkb (hk.trans h.symm)
      have hkb2 : ¬ k = b := fun h => hkb (hk.trans h)
      simp [alookup, hk, hkb, hbk, hkb2, ih]
    · have hbk : ¬ b = k := fun h => hk (hkb.trans h)
      simp [alookup, hk, hkb, hbk]
    · simp [alookup, hk, hkb, ih]

theorem alookup_updBuckets (i : Int) (B : List (Int × Candle)) (x : Int × ℚ)
    (b : Int) :
    alookup b (updBuckets i B x)
      = if bucketOf i x.1 = b then candStep b (alookup b B) x.2
        else alookup b B := by
  unfold updBuckets
  cases hk : alookup (bucketOf i x.1) B with
  | none =>
    rw [alookup_append]
    by_cases hb : bucketOf i x.1 = b
    · rw [← hb, hk]
      simp [alookup, candStep]
    · cases h2 : alookup b B <;> simp [alookup, hb, h2, candStep]
  | some d =>
    rw [alookup_map_upd]
    by_cases hb : bucketOf i x.1 = b
    · rw [← hb, hk]
      simp [candStep, hb]
    · have : ¬ b = bucketOf i x.1 := fun h => hb h.symm
      simp [this, hb]

theorem alookup_foldl (i b : Int) (ts : List (Int × ℚ))
    (B : List (Int × Candle)) :
    alookup b (ts.foldl (updBuckets i) B)
      = ((ts.filter (fun x => decide (bucketOf i x.1 = b))).map
          (fun x => x.2)).foldl (candStep b) (alookup b B) := by
  induction ts generalizing B with
  | nil => rfl
  | cons x rest ih =>
    rw [List.foldl_cons, ih, alookup_updBuckets]
    by_cases h : bucketOf i x.1 = b <;> simp [List.filter_cons, h]

theorem foldl_candStep_some (b : Int) (ps : List ℚ) (d : Candle) :
    ps.foldl (candStep b) (some d) = some (ps.foldl tickUpd d) := by
  induction ps generalizing d with
  | nil => rfl
  | cons p rest ih => simp [candStep, ih]

theorem specCandleOfPrices_eq_foldl (b : Int) (ps : List ℚ) :
    specCandleOfPrices b ps = ps.foldl (candStep b) none := by
  cases ps with
  | nil => rfl
  | cons p rest => simp [specCandleOfPrices, candStep, foldl_candStep_some]

/-- The bucket dict built by the tick loop answers every lookup exactly as
the specification's per-bucket fold prescribes. -/
theorem alookup_foldl_spec (i b : Int) (ts : List (Int × ℚ)) :
    alookup b (ts.foldl (updBuckets i) []) = specCandle i b ts := by
  rw [alookup_foldl, specCandle, specCandleOfPrices_eq_foldl]
  rfl

theorem alookup_eq_none_iff (b : Int) (B : List (Int × Candle)) :
    alookup b B = none ↔ b ∉ B.map (fun kv => kv.1) := by
  induction B with
  | nil => simp [alookup]
  | cons kv rest ih =>
    by_cases h : kv.1 = b
    · simp only [alookup, if_pos h, List.map_cons, List.mem_cons]
      constructor
      · intro hx
        exact absurd hx (by simp)
      · intro hx
        exact absurd (Or.inl h.symm) hx
    · simp only [alookup, if_neg h, List.map_cons, List.mem_cons, ih]
      constructor
      · intro hx hmem
        rcases hmem with h1 | h2
        · exact h h1.symm
        · exact hx h2
      · intro hx h2
        exact hx (Or.inr h2)

theorem keys_updBuckets (i : Int) (B : List (Int × Candle)) (x : Int × ℚ) :
    (updBuckets i B x).map (fun kv => kv.1)
      = if bucketOf i x.1 ∈ B.map (fun kv => kv.1)
        then B.map (fun kv => kv.1)
        else B.map (fun kv => kv.1) ++ [bucketOf i x.1] := by
  unfold updBuckets
  cases hk : alookup (bucketOf i x.1) B with
  | none =>
    have hni : bucketOf i x.1 ∉ B.map (fun kv => kv.1) :=
      (alookup_eq_none_iff _ _).mp hk
    simp [hni]
  | some d =>
    have hmem : bucketOf i x.1 ∈ B.map (fun kv => kv.1) := by
      by_contra hno
      rw [← alookup_eq_none_iff] at hno
      rw [hno] at hk
      exact Option.noConfusion hk
    rw [if_pos hmem, List.map_map]
    apply List.map_congr_left
    intro kv _
    by_cases h : kv.1 = bucketOf i x.1 <;> simp [h]

theorem mem_keys_foldl (i : Int) (ts : List (Int × ℚ))
    (B : List (Int × Candle)) (b : Int) :
    b ∈ (ts.foldl (updBuckets i) B).map (fun kv => kv.1)
      ↔ b ∈ B.map (fun kv => kv.1)
        ∨ b ∈ ts.map (fun x => bucketOf i x.1) := by
  induction ts generalizing B with
  | nil => simp
  | cons x rest ih =>
    rw [List.foldl_cons, ih, keys_updBuckets]
    by_cases h : bucketOf i x.1 ∈ B.map (fun kv => kv.1)
    · rw [if_pos h]
      simp only [List.map_cons, List.mem_cons]
      constructor
      · tauto
      · rintro (h1 | h2 | h3)
        · exact Or.inl h1
        · exact Or.inl (h2 ▸ h)
        · exact Or.inr h3
    · rw [if_neg h]
      simp only [List.mem_append, List.mem_singleton, List.map_cons,
        List.mem_cons]
      tauto

theorem nodup_keys_foldl (i : Int) (ts : List (Int × ℚ))
    (B : List (Int × Candle))
    (hB : (B.map (fun kv => kv.1)).Nodup) :
    ((ts.foldl (updBuckets i) B).map (fun kv => kv.1)).Nodup := by
  induction ts generalizing B with
  | nil => exact hB
  | cons x rest ih =>
    rw [List.foldl_cons]
    apply ih
    rw [keys_updBuckets]
    by_cases h : bucketOf i x.1 ∈ B.map (fun kv => kv.1)
    · rwa [if_pos h]
    · rw [if_neg h]
      simp [List.nodup_append, hB, h]

theorem sortedKeys_eq (i : Int) (ticks : List (Int × ℚ)) :
    List.insertionSort (fun a b => a ≤ b)
        ((ticks.foldl (updBuckets i) []).map (fun kv => kv.1))
      = specBucketKeys i ticks := by
  unfold specBucketKeys
  have hperm : List.Perm
      (List.insertionSort (fun a b : Int => a ≤ b)
        ((ticks.foldl (updBuckets i) []).map (fun kv => kv.1)))
      (List.insertionSort (fun a b : Int => a ≤ b)
        ((ticks.map (fun x => bucketOf i x.1)).dedup)) := by
    refine (List.perm_insertionSort _ _).trans (List.Perm.trans ?_
      (List.perm_insertionSort _ _).symm)
    refine (List.perm_ext_iff_of_nodup ?_ ?_).mpr ?_
    · exact nodup_keys_foldl i ticks [] (by simp)
    · exact List.nodup_dedup _
    · intro a
      rw [mem_keys_foldl, List.mem_dedup]
      simp
  exact List.eq_of_perm_of_sorted hperm
    (List.sorted_insertionSort _ _) (List.sorted_insertionSort _ _)

/-- The code's aggregation at a fixed interval equals the specification's
description: per-bucket first-init/then-update candles, emitted in
ascending bucket order, last `lim` kept. -/
theorem ohlcAtInterval_eq_spec (i lim : Int) (ticks : List (Int × ℚ)) :
    ohlcAtInterval i lim ticks = ohlcSpec i lim ticks := by
  unfold ohlcAtInterval ohlcSpec
  have hfun : (fun k => alookup k (ticks.foldl (updBuckets i) []))
      = fun b => specCandle i b ticks :=
    funext (fun b => alookup_foldl_spec i b ticks)
  rw [sortedKeys_eq, hfun]

theorem compute_ohlc_eq_core (interval limit : Int) (ticks : List (Int × ℚ)) :
    compute_ohlc interval limit ticks
      = ohlcAtInterval (effInterval interval) (effLimit limit) ticks := rfl

/-- C4: `compute_ohlc` realizes the specified bucketing exactly.  Every
fetched tick lands in bucket `⌊at_epoch / interval_sec⌋ · interval_sec`
(so a tick exactly on a boundary `k · i` starts the new bucket `k · i`);
within a bucket the first tick in time order (the fetched list is
ascending) initializes `o,h,l,c` and each later tick updates
`h = max`, `l = min`, `c = last`; candles come out in ascending bucket
order and exactly the last `limit` (after the code's clamping of the
parameters) are returned — `ohlcSpec` is the specification transcribed,
and the two functions agree on every input. -/
theorem compute_ohlc_matches_spec :
    (∀ (interval limit : Int) (ticks : List (Int × ℚ)),
        compute_ohlc interval limit ticks
          = ohlcSpec (effInterval interval) (effLimit limit) ticks) ∧
    (∀ i k : Int, 0 < i → bucketOf i (k * i) = k * i) := by
  constructor
  · intro interval limit ticks
    rw [compute_ohlc_eq_core, ohlcAtInterval_eq_spec]
  · intro i k hi
    unfold bucketOf
    rw [Int.mul_fdiv_cancel k (ne_of_gt hi)]

/-- C4 witness: the agreement evaluated on the four-tick scenario of the
specification (interval 60), plus a boundary tick at `2 · 60`. -/
theorem compute_ohlc_matches_spec_witness :
    compute_ohlc 60 200 [(1700000000, 100), (1700000030, 110),
        (1700000059, 105), (1700000061, 120)]
      = ohlcSpec (effInterval 60) (effLimit 200) [(1700000000, 100),
        (1700000030, 110), (1700000059, 105), (1700000061, 120)] ∧
    bucketOf 60 (2 * 60) = 2 * 60 := by
  exact ⟨compute_ohlc_matches_spec.1 60 200 _,
         compute_ohlc_matches_spec.2 60 2 (by decide)⟩

/-- Bounds every candle of the aggregator maintains. -/
def CandleInv (cd : Candle) : Prop :=
  cd.l ≤ cd.o ∧ cd.o ≤ cd.h ∧ cd.l ≤ cd.c ∧ cd.c ≤ cd.h

theorem candleInv_tickInit (b : Int) (p : ℚ) : CandleInv (tickInit b p) :=
  ⟨le_refl _, le_refl _, le_refl _, le_refl _⟩

theorem candleInv_tickUpd (d : Candle) (p : ℚ) (hd : CandleInv d) :
    CandleInv (tickUpd d p) := by
  obtain ⟨h1, h2, h3, h4⟩ := hd
  exact ⟨(min_le_left _ _).trans h1, h2.trans (le_max_left _ _),
    min_le_right _ _, le_max_right _ _⟩

theorem candleInv_foldl (ps : List ℚ) (d : Candle) (hd : CandleInv d) :
    CandleInv (ps.foldl tickUpd d) := by
  induction ps generalizing d with
  | nil => exact hd
  | cons p rest ih => exact ih _ (candleInv_tickUpd d p hd)

theorem candleInv_specCandleOfPrices (b : Int) (ps : List ℚ) (cd : Candle)
    (h : specCandleOfPrices b ps = some cd) : CandleInv cd := by
  cases ps with
  | nil => exact absurd h (by simp [specCandleOfPrices])
  | cons p rest =>
    simp only [specCandleOfPrices, Option.some.injEq] at h
    rw [← h]
    exact candleInv_foldl rest (tickInit b p) (candleInv_tickInit b p)

/-- C6: every candle `compute_ohlc` returns satisfies
`l ≤ min(o, c)` and `h ≥ max(o, c)`. -/
theorem ohlc_candle_bounds (interval limit : Int) (ticks : List (Int × ℚ))
    (cd : Candle) (h : cd ∈ compute_ohlc interval limit ticks) :
    cd.l ≤ min cd.o cd.c ∧ max cd.o cd.c ≤ cd.h := by
  rw [compute_ohlc_eq_core, ohlcAtInterval_eq_spec] at h
  unfold ohlcSpec takeLast at h
  have h2 : cd ∈ (specBucketKeys (effInterval interval) ticks).filterMap
      (fun b => specCandle (effInterval interval) b ticks) :=
    List.drop_subset _ _ h
  obtain ⟨b, hb, hcd⟩ := List.mem_filterMap.mp h2
  simp only [specCandle] at hcd
  obtain ⟨h1, h2', h3, h4⟩ := candleInv_specCandleOfPrices b _ cd hcd
  exact ⟨le_min h1 h3, max_le h2' h4⟩

/-- C6 witness: the bound theorem applied to the one concrete candle of a
two-tick input (first price 5, then 3 in the same bucket). -/
theorem ohlc_candle_bounds_witness :
    (⟨0, 5, 5, 3, 3⟩ : Candle) ∈ compute_ohlc 60 10 [(0, 5), (10, 3)] ∧
    ((3 : ℚ) ≤ min 5 3 ∧ max (5 : ℚ) 3 ≤ 5) := by
  have hmem : (⟨0, 5, 5, 3, 3⟩ : Candle) ∈ compute_ohlc 60 10 [(0, 5), (10, 3)] := by
    decide
  exact ⟨hmem, ohlc_candle_bounds 60 10 [(0, 5), (10, 3)] ⟨0, 5, 5, 3, 3⟩ hmem⟩

/-- C10 counterexample: with `interval_sec = 172800` (two days, above the
claimed ceiling 86400) the code buckets at 172800 as-is: the ticks at
epochs 0 and 100000 fall into one single candle, whereas under the claimed
clamp to 86400 the tick at 100000 would start a second bucket at 86400.
The code's effective interval 172800 differs from the clamped 86400. -/
theorem ohlc_interval_no_upper_clamp_cex :
    compute_ohlc 172800 200 [(0, 1), (100000, 2)] = [⟨0, 1, 2, 1, 2⟩] ∧
    specClampInterval 172800 = 86400 ∧
    bucketOf 86400 100000 = 86400 ∧
    (172800 : Int) ≠ 86400 := by
  refine ⟨by decide, by decide, by decide, by decide⟩

/-- C10 (amended): the effective candle interval is `max(10, interval_sec)`
— an interval below 10 is raised to 10, but there is no upper clamp: any
interval of at least 10, including values above 86400, is used for
bucketing exactly as given. -/
theorem ohlc_interval_lower_clamp_only (interval limit : Int)
    (ticks : List (Int × ℚ)) :
    (10 ≤ interval →
      compute_ohlc interval limit ticks
        = ohlcAtInterval interval (effLimit limit) ticks) ∧
    (interval < 10 →
      compute_ohlc interval limit ticks
        = ohlcAtInterval 10 (effLimit limit) ticks) := by
  constructor
  · intro h
    rw [compute_ohlc_eq_core, effInterval, max_eq_right h]
  · intro h
    rw [compute_ohlc_eq_core, effInterval, max_eq_left h.le]

/-- C10 witness: an interval of 172800 (beyond 86400) is used as-is, and
an interval of 3 is raised to 10. -/
theorem ohlc_interval_lower_clamp_only_witness :
    compute_ohlc 172800 200 [(0, (1 : ℚ)), (100000, 2)]
      = ohlcAtInterval 172800 (effLimit 200) [(0, 1), (100000, 2)] ∧
    compute_ohlc 3 200 [(0, (1 : ℚ))] = ohlcAtInterval 10 (effLimit 200) [(0, 1)] := by
  exact ⟨(ohlc_interval_lower_clamp_only 172800 200 [(0, 1), (100000, 2)]).1 (by decide),
         (ohlc_interval_lower_clamp_only 3 200 [(0, 1)]).2 (by decide)⟩
